import Mathlib

/-!
# A fixed-window rate limiter (`limiter.go`)

Shallow embedding of the rate-limiting middleware of `limiter.go`.

* The clock reading `time.Now().Unix()` is an explicit argument `now : Int`.
* The Redis connection is an explicit argument: a function from a command and a
  store state to a reply and a new store state.
* The effects of one run of the handler (commands sent, bytes written to the
  response, calls of `next.ServeHTTP`) are collected in an `Outcome`. The lines
  the handler prints with `fmt.Println` go to the standard output of the
  process and are not part of the outcome; closing the connection returns it to
  the pool and has no effect on the store.
-/

namespace Limiter

/-! ## Constants (`limiter.go` lines 29-37) -/

/-- BUCKET: time bucket for key generation, in seconds. -/
def BUCKET : Int := 1 * 60

/-- EXPIRY: time after which keys should expire in redis, in seconds. -/
def EXPIRY : Int := 5 * 60

/-- THRESHOLD: the rate limiting threshold. -/
def THRESHOLD : Int := 10

/-! ## Key derivation (`limiter.go` lines 60-66) -/

/-- Decimal rendering `strconv.FormatInt(i, 10)`: the decimal digits of the
magnitude, most significant first, preceded by a minus sign for a negative
number. -/
def FormatInt (i : Int) : String :=
  match i with
  | Int.ofNat n => String.mk (Nat.toDigits 10 n)
  | Int.negSucc n => String.mk ('-' :: Nat.toDigits 10 (n + 1))

/-- GetKey, with the clock reading `time.Now().Unix()` passed as `now`.
Go's `/` on signed integers truncates toward zero, which is `Int.tdiv`; the
quotient of an int64 by 60 cannot overflow. -/
def GetKey (now : Int) (IP : String) : String :=
  let bucket := Int.tdiv now BUCKET
  let IP := IP ++ FormatInt bucket
  IP

/-! ## Requests -/

/-- The part of `http.Request` the middleware reads: the header map (canonical
header name to its list of values) and the remote address. -/
structure Request where
  Header : List (String × List String)
  RemoteAddr : String

/-- The method `Header.Get`: the first value stored under the key, or the empty
string when there is none. -/
def Header.Get (h : List (String × List String)) (key : String) : String :=
  match h.lookup key with
  | some (v :: _) => v
  | _ => ""

/-! ## The store connection -/

/-- Commands the middleware sends with `conn.Do`. -/
inductive Cmd where
  | GET (key : String)
  | SET (key : String) (value : Int)
  | EXPIRE (key : String) (seconds : Int)
  deriving DecidableEq, Repr

/-- Replies of `conn.Do`, as far as `redis.Int` tells them apart. -/
inductive Reply where
  /-- a reply holding an integer -/
  | integer (v : Int)
  /-- the nil reply: the key does not exist -/
  | null
  /-- a status reply such as OK -/
  | status
  /-- any failure: transport error, error reply, unparsable value -/
  | failure
  deriving DecidableEq, Repr

/-- A connection: the effect of `conn.Do` on a store of type `σ`. -/
structure Conn (σ : Type) where
  Do : Cmd → σ → Reply × σ

/-- The conversion `redis.Int`: the integer and whether the error is non-nil.
The integer that comes with an error is only printed by the handler. -/
def redisInt : Reply → Int × Bool
  | Reply.integer v => (v, false)
  | _ => (0, true)

/-! ## The middleware (`limiter.go` lines 68-97) -/

/-- Observable effects of one run of the handler. -/
structure Outcome (σ : Type) where
  /-- store state after the run -/
  store : σ
  /-- commands sent on the connection, in order -/
  cmds : List Cmd
  /-- chunks written to the response by the middleware itself -/
  body : List String
  /-- number of calls of `next.ServeHTTP` -/
  served : Nat

/-- The text written to a rejected request. -/
def rejectionMessage : String := "Max Rate Limiting Reached, Please try after some time"

/-- Lines 73-79: the client identity, before the bucket is appended. -/
def clientIP (r : Request) : String :=
  let IPAddress := Header.Get r.Header "X-Real-Ip"
  let IPAddress := if IPAddress = "" then Header.Get r.Header "X-Forwarded-For" else IPAddress
  let IPAddress := if IPAddress = "" then r.RemoteAddr else IPAddress
  IPAddress

/-- The handler returned by rateLimitMiddleWare, run on request `r` at clock
reading `now` against store state `s`. In the last branch `val ≤ 10`, so
`val + 1` does not overflow a Go `int`. -/
def rateLimitMiddleWare {σ : Type} (conn : Conn σ) (now : Int) (r : Request) (s : σ) :
    Outcome σ :=
  let IPAddress := GetKey now (clientIP r)
  let g := conn.Do (Cmd.GET IPAddress) s
  let val := (redisInt g.1).1
  let err := (redisInt g.1).2
  if err then
    let s2 := (conn.Do (Cmd.SET IPAddress 1) g.2).2
    let s3 := (conn.Do (Cmd.EXPIRE IPAddress EXPIRY) s2).2
    { store := s3
      cmds := [Cmd.GET IPAddress, Cmd.SET IPAddress 1, Cmd.EXPIRE IPAddress EXPIRY]
      body := []
      served := 1 }
  else if val > THRESHOLD then
    { store := g.2
      cmds := [Cmd.GET IPAddress]
      body := [rejectionMessage]
      served := 0 }
  else
    let s2 := (conn.Do (Cmd.SET IPAddress (val + 1)) g.2).2
    { store := s2
      cmds := [Cmd.GET IPAddress, Cmd.SET IPAddress (val + 1)]
      body := []
      served := 1 }

/-! ## The counter store -/

/-- Modelled from the spec: the shared counter store, an external key-value
service that is not part of the source. Each key holds an integer counter
(`val`) and possibly a time to live in seconds (`ttl`); the commands are those of
the store contract, `get(key) -> (value, found)`, `set(key, value)` and
`expire(key, ttlSeconds)`. No time passes in this model, so no expiry fires. -/
structure Store where
  val : String → Option Int
  ttl : String → Option Int

/-- Modelled from the spec: `set(key, value)` stores the value under the key. -/
def Store.set (s : Store) (k : String) (v : Int) : Store :=
  { s with val := fun x => if x = k then some v else s.val x }

/-- Modelled from the spec: `expire(key, ttlSeconds)` records the time to live
of the key. -/
def Store.expire (s : Store) (k : String) (secs : Int) : Store :=
  { s with ttl := fun x => if x = k then some secs else s.ttl x }

/-- Modelled from the spec: a live connection to the store, on which SET and
EXPIRE always take effect (EXPIRE only on an existing key) and on which GET
leaves the store alone and is answered by `read`. A read that fails on such a
connection is an error reply or an unparsable value, not a lost connection. -/
def storeConn (read : Store → String → Reply) : Conn Store where
  Do := fun c s =>
    match c with
    | Cmd.GET k => (read s k, s)
    | Cmd.SET k v => (Reply.status, s.set k v)
    | Cmd.EXPIRE k n =>
      if (s.val k).isSome then (Reply.integer 1, s.expire k n) else (Reply.integer 0, s)

/-- Modelled from the spec: the answer of a read that never fails: the stored
integer, or the nil reply for an absent key. -/
def lookupReply (s : Store) (k : String) : Reply :=
  match s.val k with
  | some v => Reply.integer v
  | none => Reply.null

/-- Modelled from the spec: the reliable store, where GET fails only when the
key is absent. -/
def reliable : Conn Store := storeConn lookupReply

/-- Modelled from the spec: an unreachable store. Every operation fails and the
store is left as it was; this is also what a connection does after a transport
error. -/
def deadConn : Conn Store where
  Do := fun _ s => (Reply.failure, s)

/-- A store holding no key. -/
def emptyStore : Store := { val := fun _ => none, ttl := fun _ => none }

/-! ## Requests served one after another -/

/-- The store after the first `n` requests of the stream `reqs` (each a clock
reading and a request) have been handled in order. -/
def storeAfter {σ : Type} (conn : Conn σ) (reqs : Nat → Int × Request) : Nat → σ → σ
  | 0, s => s
  | n + 1, s =>
    (rateLimitMiddleWare conn (reqs n).1 (reqs n).2 (storeAfter conn reqs n s)).store

/-- The outcome of request number `k` (counted from 0) of the stream. -/
def outcomeAt {σ : Type} (conn : Conn σ) (reqs : Nat → Int × Request) (k : Nat) (s : σ) :
    Outcome σ :=
  rateLimitMiddleWare conn (reqs k).1 (reqs k).2 (storeAfter conn reqs k s)

/-! ## One command at a time

The handler sends its commands one by one; another request may use the store
between two of them. `Pc` names the points of the handler between commands. -/

/-- Control points of the handler. -/
inductive Pc where
  /-- before the GET of line 82 -/
  | start
  /-- after the GET, holding `val` and whether `err` is non-nil -/
  | read (val : Int) (err : Bool)
  /-- after the SET of line 84, before the EXPIRE of line 85 -/
  | created
  /-- the handler has returned; `admitted` tells whether `next.ServeHTTP` ran -/
  | finished (admitted : Bool)
  deriving DecidableEq, Repr

/-- A request in flight. -/
structure Thread where
  now : Int
  req : Request
  pc : Pc

/-- One step of a request in flight: the code up to and including its next
command, or up to its return. -/
def Thread.step {σ : Type} (conn : Conn σ) (t : Thread) (s : σ) : Thread × σ :=
  let IPAddress := GetKey t.now (clientIP t.req)
  match t.pc with
  | Pc.start =>
    let g := conn.Do (Cmd.GET IPAddress) s
    ({ t with pc := Pc.read (redisInt g.1).1 (redisInt g.1).2 }, g.2)
  | Pc.read val err =>
    if err then
      ({ t with pc := Pc.created }, (conn.Do (Cmd.SET IPAddress 1) s).2)
    else if val > THRESHOLD then
      ({ t with pc := Pc.finished false }, s)
    else
      ({ t with pc := Pc.finished true }, (conn.Do (Cmd.SET IPAddress (val + 1)) s).2)
  | Pc.created =>
    ({ t with pc := Pc.finished true }, (conn.Do (Cmd.EXPIRE IPAddress EXPIRY) s).2)
  | Pc.finished a => ({ t with pc := Pc.finished a }, s)

/-- Two requests in flight on one store, stepped in the order given by the
schedule: `false` steps the first request, `true` the second. -/
def interleave {σ : Type} (conn : Conn σ) :
    List Bool → Thread × Thread × σ → Thread × Thread × σ
  | [], c => c
  | false :: rest, (a, b, s) => interleave conn rest ((a.step conn s).1, b, (a.step conn s).2)
  | true :: rest, (a, b, s) => interleave conn rest (a, (b.step conn s).1, (b.step conn s).2)

/-! ## Decimal rendering -/

/-- Reading a digit string back: the left inverse of the decimal rendering. -/
def decodeNat (cs : List Char) : Nat :=
  cs.foldl (fun a c => 10 * a + (c.toNat - 48)) 0

/-! # Lemmas -/

theorem digitChar_toNat (d : Nat) (h : d < 10) : (Nat.digitChar d).toNat - 48 = d := by
  interval_cases d <;> rfl

theorem digitChar_ne_minus (d : Nat) (h : d < 10) : Nat.digitChar d ≠ '-' := by
  interval_cases d <;> decide

theorem foldl_toDigitsCore (f : Nat) : ∀ (n : Nat) (ds : List Char), n < f →
    (Nat.toDigitsCore 10 f n ds).foldl (fun a c => 10 * a + (c.toNat - 48)) 0
      = ds.foldl (fun a c => 10 * a + (c.toNat - 48)) n := by
  induction f with
  | zero => intro n ds h; omega
  | succ f ih =>
    intro n ds h
    have hd : (Nat.digitChar (n % 10)).toNat - 48 = n % 10 :=
      digitChar_toNat _ (Nat.mod_lt _ (by norm_num))
    simp only [Nat.toDigitsCore]
    split
    · rename_i h0
      simp only [List.foldl_cons, hd]
      congr 1
      omega
    · rename_i h0
      rw [ih (n / 10) _ (by omega)]
      simp only [List.foldl_cons, hd]
      congr 1
      omega

theorem decodeNat_toDigits (n : Nat) : decodeNat (Nat.toDigits 10 n) = n := by
  unfold decodeNat Nat.toDigits
  rw [foldl_toDigitsCore (n + 1) n [] (by omega)]
  rfl

theorem mem_toDigitsCore (f : Nat) : ∀ (n : Nat) (ds : List Char) (c : Char),
    c ∈ Nat.toDigitsCore 10 f n ds → c ∈ ds ∨ ∃ d, d < 10 ∧ c = Nat.digitChar d := by
  induction f with
  | zero => intro n ds c h; left; simpa [Nat.toDigitsCore] using h
  | succ f ih =>
    intro n ds c h
    simp only [Nat.toDigitsCore] at h
    split at h
    · rcases List.mem_cons.mp h with h1 | h1
      · right; exact ⟨n % 10, Nat.mod_lt _ (by norm_num), h1⟩
      · left; exact h1
    · rcases ih _ _ _ h with h1 | h1
      · rcases List.mem_cons.mp h1 with h2 | h2
        · right; exact ⟨n % 10, Nat.mod_lt _ (by norm_num), h2⟩
        · left; exact h2
      · right; exact h1

theorem minus_not_mem_toDigits (n : Nat) : '-' ∉ Nat.toDigits 10 n := by
  intro h
  rcases mem_toDigitsCore _ _ _ _ h with h1 | ⟨d, hd, h1⟩
  · simp at h1
  · exact digitChar_ne_minus d hd h1.symm

theorem toDigits_injective (m n : Nat) (h : Nat.toDigits 10 m = Nat.toDigits 10 n) : m = n := by
  have := congrArg decodeNat h
  simpa [decodeNat_toDigits] using this

theorem FormatInt_injective (a b : Int) (h : FormatInt a = FormatInt b) : a = b := by
  have h := congrArg String.data h
  cases a with
  | ofNat m =>
    cases b with
    | ofNat n =>
      simp only [FormatInt] at h
      rw [toDigits_injective m n h]
    | negSucc n =>
      simp only [FormatInt] at h
      exact absurd (h ▸ List.mem_cons_self _ _) (minus_not_mem_toDigits m)
  | negSucc m =>
    cases b with
    | ofNat n =>
      simp only [FormatInt] at h
      exact absurd (h.symm ▸ List.mem_cons_self _ _) (minus_not_mem_toDigits n)
    | negSucc n =>
      simp only [FormatInt, List.cons.injEq, true_and] at h
      have := toDigits_injective _ _ h
      have : m = n := by omega
      rw [this]

theorem append_left_cancel (a x y : String) (h : a ++ x = a ++ y) : x = y := by
  have := congrArg String.data h
  simp only [String.data_append] at this
  exact String.ext (List.append_cancel_left this)

theorem append_right_cancel (a b x : String) (h : a ++ x = b ++ x) : a = b := by
  have := congrArg String.data h
  simp only [String.data_append] at this
  exact String.ext (List.append_cancel_right this)

/-- The bucket of a clock reading at or after the epoch is its floor quotient. -/
theorem tdiv_eq_fdiv_of_nonneg (t : Int) (h : 0 ≤ t) : Int.tdiv t BUCKET = Int.fdiv t 60 := by
  have hb : BUCKET = 60 := by decide
  rw [hb, Int.tdiv_eq_ediv h (by norm_num), Int.fdiv_eq_ediv t (by norm_num)]

/-! ## The three branches of the handler -/

theorem middleware_of_error {σ : Type} (conn : Conn σ) (now : Int) (r : Request) (s : σ)
    (h : (redisInt (conn.Do (Cmd.GET (GetKey now (clientIP r))) s).1).2 = true) :
    rateLimitMiddleWare conn now r s =
      { store := (conn.Do (Cmd.EXPIRE (GetKey now (clientIP r)) EXPIRY)
          (conn.Do (Cmd.SET (GetKey now (clientIP r)) 1)
            (conn.Do (Cmd.GET (GetKey now (clientIP r))) s).2).2).2
        cmds := [Cmd.GET (GetKey now (clientIP r)), Cmd.SET (GetKey now (clientIP r)) 1,
          Cmd.EXPIRE (GetKey now (clientIP r)) EXPIRY]
        body := []
        served := 1 } := by
  simp only [rateLimitMiddleWare, h, if_true]

theorem middleware_of_over {σ : Type} (conn : Conn σ) (now : Int) (r : Request) (s : σ)
    (h : (redisInt (conn.Do (Cmd.GET (GetKey now (clientIP r))) s).1).2 = false)
    (hv : (redisInt (conn.Do (Cmd.GET (GetKey now (clientIP r))) s).1).1 > THRESHOLD) :
    rateLimitMiddleWare conn now r s =
      { store := (conn.Do (Cmd.GET (GetKey now (clientIP r))) s).2
        cmds := [Cmd.GET (GetKey now (clientIP r))]
        body := [rejectionMessage]
        served := 0 } := by
  simp only [rateLimitMiddleWare, h, hv, if_true, Bool.false_eq_true, if_false]

theorem middleware_of_under {σ : Type} (conn : Conn σ) (now : Int) (r : Request) (s : σ)
    (h : (redisInt (conn.Do (Cmd.GET (GetKey now (clientIP r))) s).1).2 = false)
    (hv : ¬ (redisInt (conn.Do (Cmd.GET (GetKey now (clientIP r))) s).1).1 > THRESHOLD) :
    rateLimitMiddleWare conn now r s =
      { store := (conn.Do (Cmd.SET (GetKey now (clientIP r))
            ((redisInt (conn.Do (Cmd.GET (GetKey now (clientIP r))) s).1).1 + 1))
          (conn.Do (Cmd.GET (GetKey now (clientIP r))) s).2).2
        cmds := [Cmd.GET (GetKey now (clientIP r)),
          Cmd.SET (GetKey now (clientIP r))
            ((redisInt (conn.Do (Cmd.GET (GetKey now (clientIP r))) s).1).1 + 1)]
        body := []
        served := 1 } := by
  simp only [rateLimitMiddleWare, h, hv, Bool.false_eq_true, if_false]

theorem redisInt_error_of_not_integer (q : Reply) (h : ∀ v : Int, q ≠ Reply.integer v) :
    (redisInt q).2 = true := by
  cases q with
  | integer v => exact absurd rfl (h v)
  | null => rfl
  | status => rfl
  | failure => rfl

/-! ## The handler on the reliable store -/

theorem reliable_absent (now : Int) (r : Request) (s : Store)
    (h : s.val (GetKey now (clientIP r)) = none) :
    (rateLimitMiddleWare reliable now r s).store
        = (s.set (GetKey now (clientIP r)) 1).expire (GetKey now (clientIP r)) EXPIRY ∧
      (rateLimitMiddleWare reliable now r s).served = 1 := by
  have herr : (redisInt (reliable.Do (Cmd.GET (GetKey now (clientIP r))) s).1).2 = true := by
    simp only [reliable, storeConn, lookupReply, h, redisInt]
  rw [middleware_of_error _ now r s herr]
  simp only [reliable, storeConn, Store.set, if_true, Option.isSome_some, and_self]

theorem reliable_over (now : Int) (r : Request) (s : Store) (u : Int)
    (h : s.val (GetKey now (clientIP r)) = some u) (hu : u > THRESHOLD) :
    (rateLimitMiddleWare reliable now r s).store = s ∧
      (rateLimitMiddleWare reliable now r s).served = 0 ∧
      (rateLimitMiddleWare reliable now r s).body = [rejectionMessage] ∧
      (rateLimitMiddleWare reliable now r s).cmds = [Cmd.GET (GetKey now (clientIP r))] := by
  have herr : (redisInt (reliable.Do (Cmd.GET (GetKey now (clientIP r))) s).1).2 = false := by
    simp only [reliable, storeConn, lookupReply, h, redisInt]
  have hval : (redisInt (reliable.Do (Cmd.GET (GetKey now (clientIP r))) s).1).1
      > THRESHOLD := by
    simp only [reliable, storeConn, lookupReply, h, redisInt]
    exact hu
  rw [middleware_of_over _ now r s herr hval]
  exact ⟨rfl, rfl, rfl, rfl⟩

theorem reliable_under (now : Int) (r : Request) (s : Store) (u : Int)
    (h : s.val (GetKey now (clientIP r)) = some u) (hu : ¬ u > THRESHOLD) :
    (rateLimitMiddleWare reliable now r s).store = s.set (GetKey now (clientIP r)) (u + 1) ∧
      (rateLimitMiddleWare reliable now r s).served = 1 := by
  have herr : (redisInt (reliable.Do (Cmd.GET (GetKey now (clientIP r))) s).1).2 = false := by
    simp only [reliable, storeConn, lookupReply, h, redisInt]
  have hval : (redisInt (reliable.Do (Cmd.GET (GetKey now (clientIP r))) s).1).1 = u := by
    simp only [reliable, storeConn, lookupReply, h, redisInt]
  have hle : ¬ (redisInt (reliable.Do (Cmd.GET (GetKey now (clientIP r))) s).1).1
      > THRESHOLD := by
    rw [hval]
    exact hu
  rw [middleware_of_under _ now r s herr hle, hval]
  exact ⟨rfl, rfl⟩

theorem set_val (s : Store) (k x : String) (v : Int) :
    (s.set k v).val x = if x = k then some v else s.val x := rfl

theorem expire_val (s : Store) (k x : String) (n : Int) : (s.expire k n).val x = s.val x := rfl

/-! ## A stream of requests on one key -/

theorem storeAfter_val (reqs : Nat → Int × Request) (key : String) (s : Store)
    (hkey : ∀ i, GetKey (reqs i).1 (clientIP (reqs i).2) = key) (habs : s.val key = none) :
    ∀ n : Nat, (storeAfter reliable reqs n s).val key
      = if n = 0 then none else some ((min n 11 : Nat) : Int) := by
  have hT : THRESHOLD = 10 := rfl
  intro n
  induction n with
  | zero => simpa [storeAfter] using habs
  | succ n ih =>
    have hk := hkey n
    simp only [storeAfter]
    by_cases h0 : n = 0
    · rw [if_pos h0] at ih
      rw [← hk] at ih
      rw [(reliable_absent _ _ _ ih).1, expire_val, set_val, hk, if_pos rfl, h0]
      rfl
    · rw [if_neg h0] at ih
      have ih2 := ih
      rw [← hk] at ih2
      by_cases hu : ((min n 11 : Nat) : Int) > THRESHOLD
      · rw [(reliable_over _ _ _ _ ih2 hu).1, ih, if_neg (Nat.succ_ne_zero n)]
        rw [hT] at hu
        congr 2
        omega
      · rw [(reliable_under _ _ _ _ ih2 hu).1, set_val, hk, if_pos rfl,
          if_neg (Nat.succ_ne_zero n)]
        rw [hT] at hu
        congr 1
        omega

/-! ## One request stepped alone -/

/-- Stepping a request alone until it returns has the effect of the handler. -/
theorem step_alone_refines {σ : Type} (conn : Conn σ) (now : Int) (r : Request) (b : Thread)
    (s : σ) :
    (interleave conn [false, false, false] ({ now := now, req := r, pc := Pc.start }, b, s)).2.2
        = (rateLimitMiddleWare conn now r s).store ∧
      (interleave conn [false, false, false] ({ now := now, req := r, pc := Pc.start }, b, s)).1.pc
        = Pc.finished (decide ((rateLimitMiddleWare conn now r s).served = 1)) := by
  simp only [interleave, Thread.step, rateLimitMiddleWare]
  by_cases herr : (redisInt (conn.Do (Cmd.GET (GetKey now (clientIP r))) s).1).2 = true
  · simp [herr, Thread.step]
  · by_cases hv : (redisInt (conn.Do (Cmd.GET (GetKey now (clientIP r))) s).1).1 > THRESHOLD
    · simp [herr, hv, Thread.step]
    · simp [herr, hv, Thread.step]

/-! # The claims -/

/-! ## C1: eleven requests are admitted, the twelfth is rejected -/

/-- C1: on the reliable store, for a stream of requests that all derive the same
key, absent at the start, and every `k ≥ 1`, the `k`-th request is admitted
(the downstream handler is called) if and only if `k ≤ THRESHOLD + 1 = 11`;
after the 11th request the counter under the key is 11; the 12th and every
later request is rejected with the fixed message, without calling the
downstream handler, and leaves the counter at 11. -/
theorem eleven_admitted (reqs : Nat → Int × Request) (key : String) (s : Store)
    (hkey : ∀ i, GetKey (reqs i).1 (clientIP (reqs i).2) = key) (habs : s.val key = none)
    (k : Nat) (hk : 1 ≤ k) :
    THRESHOLD + 1 = 11 ∧
    ((outcomeAt reliable reqs (k - 1) s).served = 1 ↔ k ≤ 11) ∧
    (storeAfter reliable reqs 11 s).val key = some 11 ∧
    (12 ≤ k →
      (outcomeAt reliable reqs (k - 1) s).served = 0 ∧
      (outcomeAt reliable reqs (k - 1) s).body
        = ["Max Rate Limiting Reached, Please try after some time"] ∧
      (storeAfter reliable reqs k s).val key = some 11) := by
  have hT : THRESHOLD = 10 := rfl
  have hst := storeAfter_val reqs key s hkey habs
  have hprev := hst (k - 1)
  rw [← hkey (k - 1)] at hprev
  refine ⟨by decide, ?_, ?_, ?_⟩
  · by_cases h1 : k - 1 = 0
    · rw [if_pos h1] at hprev
      simp only [outcomeAt, (reliable_absent _ _ _ hprev).2, true_iff]
      omega
    · rw [if_neg h1] at hprev
      by_cases hu : ((min (k - 1) 11 : Nat) : Int) > THRESHOLD
      · simp only [outcomeAt, (reliable_over _ _ _ _ hprev hu).2.1]
        rw [hT] at hu
        constructor
        · intro h
          cases h
        · intro h
          omega
      · simp only [outcomeAt, (reliable_under _ _ _ _ hprev hu).2, true_iff]
        rw [hT] at hu
        omega
  · rw [hst 11]
    rfl
  · intro h12
    have h1 : ¬ k - 1 = 0 := by omega
    rw [if_neg h1] at hprev
    have hu : ((min (k - 1) 11 : Nat) : Int) > THRESHOLD := by
      rw [hT]
      omega
    refine ⟨?_, ?_, ?_⟩
    · simp only [outcomeAt, (reliable_over _ _ _ _ hprev hu).2.1]
    · simp only [outcomeAt, (reliable_over _ _ _ _ hprev hu).2.2.1]
      rfl
    · have hmin : min k 11 = 11 := by omega
      rw [hst k, if_neg (by omega), hmin]
      rfl

/-- C1, at twelve requests from 1.2.3.4 at clock reading 125 on an empty store:
the twelfth is rejected. -/
theorem eleven_admitted_witness :
    (outcomeAt reliable (fun _ => (125, { Header := [], RemoteAddr := "1.2.3.4" })) (12 - 1)
      emptyStore).served = 0 :=
  ((eleven_admitted (fun _ => (125, { Header := [], RemoteAddr := "1.2.3.4" })) "1.2.3.42"
      emptyStore
      (fun _ => (by decide :
        GetKey 125 (clientIP { Header := [], RemoteAddr := "1.2.3.4" }) = "1.2.3.42"))
      rfl 12 (by decide)).2.2.2 (by decide)).1

/-! ## C5: the key and the window of a clock reading -/

/-- C5 (as stated, refuted): GetKey does not return the identity followed by the
floor quotient of the clock reading by 60 for every signed clock reading. One
second before the epoch the code appends bucket 0, while the floor quotient is
-1; and the readings -60 and -1, both in the window from -60 to -1, receive
different keys. -/
theorem GetKey_floor_counterexample :
    ¬ (∀ (IP : String) (t : Int), GetKey t IP = IP ++ FormatInt (Int.fdiv t 60)) ∧
    GetKey (-1) "1.2.3.4" = "1.2.3.40" ∧
    "1.2.3.4" ++ FormatInt (Int.fdiv (-1) 60) = "1.2.3.4-1" ∧
    (60 * (-1) ≤ (-60 : Int) ∧ (-1 : Int) < 60 * (-1) + 60 ∧
      GetKey (-60) "1.2.3.4" ≠ GetKey (-1) "1.2.3.4") := by
  refine ⟨fun h => absurd (h "1.2.3.4" (-1)) (by decide), by decide, by decide, by decide,
    by decide, by decide⟩

/-- C5 (amended): for every identity and every clock reading `t` at or after the
epoch, GetKey returns the identity followed by the decimal rendering of the
floor of `t / 60`; hence every such `t` with `60 k ≤ t < 60 k + 60` yields the
key of window `k`, the same key as the boundary instant `60 k`; and for every
integer `j` the boundary instant `60 j` yields the key of window `j`, not the key
of window `j - 1`. -/
theorem GetKey_floor_of_nonneg (IP : String) (t k j : Int) (ht : 0 ≤ t) :
    GetKey t IP = IP ++ FormatInt (Int.fdiv t 60) ∧
    (60 * k ≤ t → t < 60 * k + 60 →
      GetKey t IP = IP ++ FormatInt k ∧ GetKey t IP = GetKey (60 * k) IP) ∧
    (GetKey (60 * j) IP = IP ++ FormatInt j ∧ GetKey (60 * j) IP ≠ IP ++ FormatInt (j - 1)) := by
  have hbound : ∀ i : Int, GetKey (60 * i) IP = IP ++ FormatInt i := by
    intro i
    have : Int.tdiv (60 * i) BUCKET = i := by
      have hb : BUCKET = 60 := by decide
      rw [hb]
      exact Int.mul_tdiv_cancel_left i (by norm_num)
    simp only [GetKey, this]
  have hfloor : GetKey t IP = IP ++ FormatInt (Int.fdiv t 60) := by
    simp only [GetKey, tdiv_eq_fdiv_of_nonneg t ht]
  refine ⟨hfloor, ?_, hbound j, ?_⟩
  · intro h1 h2
    have hk : Int.fdiv t 60 = k := by
      rw [Int.fdiv_eq_ediv t (by norm_num)]
      omega
    rw [hbound k, hfloor, hk]
    exact ⟨rfl, rfl⟩
  · rw [hbound j]
    intro h
    have := FormatInt_injective _ _ (append_left_cancel _ _ _ h)
    omega

/-- C5 (amended), at identity 1.2.3.4, clock reading 119 and window 1. -/
theorem GetKey_floor_of_nonneg_witness :
    (0 : Int) ≤ 119 ∧ GetKey 119 "1.2.3.4" = "1.2.3.4" ++ FormatInt (Int.fdiv 119 60) ∧
    GetKey 119 "1.2.3.4" = GetKey (60 * 1) "1.2.3.4" :=
  ⟨by decide, (GetKey_floor_of_nonneg "1.2.3.4" 119 1 1 (by decide)).1,
    ((GetKey_floor_of_nonneg "1.2.3.4" 119 1 1 (by decide)).2.1 (by decide) (by decide)).2⟩

/-! ## C6: is the key unique to a client and a window? -/

/-- C6 (as stated, refuted): the key does not determine the identity and the
bucket. Identity 10.0.0.1 in bucket 12 and identity 10.0.0.11 in bucket 2 both
receive the key 10.0.0.112. -/
theorem GetKey_not_injective :
    ¬ (∀ (a b : String) (t1 t2 : Int), GetKey t1 a = GetKey t2 b →
        a = b ∧ Int.tdiv t1 BUCKET = Int.tdiv t2 BUCKET) ∧
    GetKey 720 "10.0.0.1" = "10.0.0.112" ∧ GetKey 120 "10.0.0.11" = "10.0.0.112" ∧
    Int.tdiv 720 BUCKET = 12 ∧ Int.tdiv 120 BUCKET = 2 := by
  refine ⟨fun h => ?_, by decide, by decide, by decide, by decide⟩
  exact absurd (h "10.0.0.1" "10.0.0.11" 720 120 (by decide)).1 (by decide)

/-- C6 (amended): if the keys GetKey derives for identity `a` at time `t1` and
for identity `b` at time `t2` are equal, and the two identities have the same
length or the two bucket numbers have decimal renderings of the same length (in
particular when `a = b`, or when the buckets are equal), then `a = b` and the
buckets are equal. So two different clients in one window, and one client in two
different windows, never share a counter. -/
theorem GetKey_injective_of_length (a b : String) (t1 t2 : Int)
    (hlen : a.length = b.length ∨
      (FormatInt (Int.tdiv t1 BUCKET)).length = (FormatInt (Int.tdiv t2 BUCKET)).length)
    (h : GetKey t1 a = GetKey t2 b) :
    a = b ∧ Int.tdiv t1 BUCKET = Int.tdiv t2 BUCKET := by
  have hd := congrArg String.data h
  simp only [GetKey, String.data_append] at hd
  have hboth : a.data = b.data ∧
      (FormatInt (Int.tdiv t1 BUCKET)).data = (FormatInt (Int.tdiv t2 BUCKET)).data := by
    rcases hlen with hl | hl
    · exact List.append_inj hd hl
    · exact List.append_inj' hd hl
  exact ⟨String.ext hboth.1, FormatInt_injective _ _ (String.ext hboth.2)⟩

/-- C6 (amended), at one identity and the clock readings 61 and 119 of window 1. -/
theorem GetKey_injective_of_length_witness :
    "1.2.3.4" = "1.2.3.4" ∧ Int.tdiv 61 BUCKET = Int.tdiv 119 BUCKET :=
  GetKey_injective_of_length "1.2.3.4" "1.2.3.4" 61 119 (Or.inl rfl) (by decide)

/-! ## C7: a new window starts a new counter -/

/-- C7 (as stated, refuted): two clock readings in different 60-second windows
need not receive different keys. The readings -30 and 30 = -30 + 60 lie in the
windows -1 and 0, and GetKey appends bucket 0 to both; a client whose counter
under that key is 11 is therefore still rejected at reading 30. -/
theorem next_window_counterexample :
    ¬ (∀ (IP : String) (t1 t2 : Int), Int.fdiv t1 60 ≠ Int.fdiv t2 60 →
        GetKey t1 IP ≠ GetKey t2 IP) ∧
    ((30 : Int) = -30 + 60 ∧ Int.fdiv (-30) 60 = -1 ∧ Int.fdiv 30 60 = 0 ∧
      GetKey (-30) "1.2.3.4" = "1.2.3.40" ∧ GetKey 30 "1.2.3.4" = "1.2.3.40") ∧
    (rateLimitMiddleWare reliable 30 { Header := [], RemoteAddr := "1.2.3.4" }
        { val := fun k => if k = "1.2.3.40" then some 11 else none,
          ttl := fun _ => none }).served = 0 := by
  refine ⟨fun h => ?_, by decide, by decide⟩
  exact absurd (h "1.2.3.4" (-30) 30 (by decide)) (by decide)

/-- C7 (amended): for every identity and every two clock readings `t1`, `t2` at
or after the epoch that fall in different 60-second windows (in particular
`t2 = t1 + 60`), GetKey yields different keys; hence, on the reliable store, a
client whose counter for the window of `t1` exceeds THRESHOLD (so that a request
at `t1` is rejected) and who has no key yet for the window of `t2` is admitted
at `t2`, and that request leaves the counter of the window of `t1` unchanged
and starts the new counter at 1. -/
theorem next_window_admits (IP : String) (r : Request) (t1 t2 : Int)
    (h1 : 0 ≤ t1) (h2 : 0 ≤ t2) (hw : Int.fdiv t1 60 ≠ Int.fdiv t2 60) :
    GetKey t1 IP ≠ GetKey t2 IP ∧
    GetKey t1 IP ≠ GetKey (t1 + 60) IP ∧
    (∀ (s : Store) (v : Int), s.val (GetKey t1 (clientIP r)) = some v → v > THRESHOLD →
      s.val (GetKey t2 (clientIP r)) = none →
      (rateLimitMiddleWare reliable t1 r s).served = 0 ∧
      (rateLimitMiddleWare reliable t2 r s).served = 1 ∧
      (rateLimitMiddleWare reliable t2 r s).store.val (GetKey t1 (clientIP r)) = some v ∧
      (rateLimitMiddleWare reliable t2 r s).store.val (GetKey t2 (clientIP r)) = some 1) := by
  have hne : ∀ (x : String) (a b : Int), 0 ≤ a → 0 ≤ b → Int.fdiv a 60 ≠ Int.fdiv b 60 →
      GetKey a x ≠ GetKey b x := by
    intro x a b ha hb hab h
    simp only [GetKey, tdiv_eq_fdiv_of_nonneg a ha, tdiv_eq_fdiv_of_nonneg b hb] at h
    exact hab (FormatInt_injective _ _ (append_left_cancel _ _ _ h))
  refine ⟨hne IP t1 t2 h1 h2 hw, ?_, ?_⟩
  · apply hne IP t1 (t1 + 60) h1 (by omega)
    rw [Int.fdiv_eq_ediv t1 (by norm_num), Int.fdiv_eq_ediv (t1 + 60) (by norm_num)]
    omega
  · intro s v hv hex hnew
    have hk := hne (clientIP r) t1 t2 h1 h2 hw
    refine ⟨(reliable_over t1 r s v hv hex).2.1, (reliable_absent t2 r s hnew).2, ?_, ?_⟩
    · rw [(reliable_absent t2 r s hnew).1, expire_val, set_val, if_neg hk]
      exact hv
    · rw [(reliable_absent t2 r s hnew).1, expire_val, set_val, if_pos rfl]

/-- C7 (amended), at identity 1.2.3.4 and the clock readings 125 and 185. -/
theorem next_window_admits_witness :
    GetKey 125 "1.2.3.4" ≠ GetKey 185 "1.2.3.4" :=
  (next_window_admits "1.2.3.4" { Header := [], RemoteAddr := "1.2.3.4" } 125 185
    (by decide) (by decide) (by decide)).1

/-! ## C8: the client identity -/

/-- C8: the identity the handler uses is the X-Real-Ip header value if that is
non-empty, else the X-Forwarded-For header value if that is non-empty, else the
remote address (a missing header reads as the empty string). When the X-Real-Ip
value is non-empty and differs from the remote address the identity is that
value; when the remote address is non-empty so is the identity; and the key the
handler reads from the store is GetKey of this identity. -/
theorem clientIP_priority (r : Request) (now : Int) {σ : Type} (conn : Conn σ) (s : σ) :
    clientIP r =
      (if Header.Get r.Header "X-Real-Ip" ≠ "" then Header.Get r.Header "X-Real-Ip"
       else if Header.Get r.Header "X-Forwarded-For" ≠ "" then
         Header.Get r.Header "X-Forwarded-For"
       else r.RemoteAddr) ∧
    (Header.Get r.Header "X-Real-Ip" ≠ "" → Header.Get r.Header "X-Real-Ip" ≠ r.RemoteAddr →
      clientIP r = Header.Get r.Header "X-Real-Ip") ∧
    (r.RemoteAddr ≠ "" → clientIP r ≠ "") ∧
    (rateLimitMiddleWare conn now r s).cmds.head? = some (Cmd.GET (GetKey now (clientIP r))) := by
  refine ⟨?_, ?_, ?_, ?_⟩
  · unfold clientIP
    by_cases h1 : Header.Get r.Header "X-Real-Ip" = "" <;>
      by_cases h2 : Header.Get r.Header "X-Forwarded-For" = "" <;> simp [h1, h2]
  · intro h1 _
    unfold clientIP
    simp [h1]
  · intro hr
    unfold clientIP
    by_cases h1 : Header.Get r.Header "X-Real-Ip" = "" <;>
      by_cases h2 : Header.Get r.Header "X-Forwarded-For" = "" <;> simp [h1, h2, hr]
  · unfold rateLimitMiddleWare
    simp only []
    split
    · rfl
    · split <;> rfl

/-- C8, at a request carrying X-Real-Ip 9.9.9.9 from remote address 1.2.3.4:80. -/
theorem clientIP_priority_witness :
    clientIP { Header := [("X-Real-Ip", ["9.9.9.9"])], RemoteAddr := "1.2.3.4:80" } = "9.9.9.9" :=
  (clientIP_priority { Header := [("X-Real-Ip", ["9.9.9.9"])], RemoteAddr := "1.2.3.4:80" } 0
    reliable emptyStore).2.1 (by decide) (by decide)

/-! ## C2: a read that yields no integer -/

/-- C2 (as stated, refuted): it is not true that whenever the GET yields no
integer the counter under the key is set to 1 with an expiry of 300 seconds. On
an unreachable store the GET fails, the request is admitted and SET and EXPIRE
are sent, but they fail too: a key holding 7 still holds 7 and has no time to
live, whereas for an absent key on the reliable store the key then holds 1 with
a time to live of 300 seconds. -/
theorem read_failure_counterexample :
    ¬ (∀ (conn : Conn Store) (now : Int) (r : Request) (s : Store),
        (∀ v : Int, (conn.Do (Cmd.GET (GetKey now (clientIP r))) s).1 ≠ Reply.integer v) →
        (rateLimitMiddleWare conn now r s).served = 1 ∧
        (rateLimitMiddleWare conn now r s).store.val (GetKey now (clientIP r)) = some 1 ∧
        (rateLimitMiddleWare conn now r s).store.ttl (GetKey now (clientIP r)) = some 300) ∧
    (rateLimitMiddleWare deadConn 125 { Header := [], RemoteAddr := "1.2.3.4" }
        { val := fun k => if k = "1.2.3.42" then some 7 else none,
          ttl := fun _ => none }).served = 1 ∧
    (rateLimitMiddleWare deadConn 125 { Header := [], RemoteAddr := "1.2.3.4" }
        { val := fun k => if k = "1.2.3.42" then some 7 else none,
          ttl := fun _ => none }).cmds
      = [Cmd.GET "1.2.3.42", Cmd.SET "1.2.3.42" 1, Cmd.EXPIRE "1.2.3.42" 300] ∧
    (rateLimitMiddleWare deadConn 125 { Header := [], RemoteAddr := "1.2.3.4" }
        { val := fun k => if k = "1.2.3.42" then some 7 else none,
          ttl := fun _ => none }).store.val "1.2.3.42" = some 7 ∧
    (rateLimitMiddleWare deadConn 125 { Header := [], RemoteAddr := "1.2.3.4" }
        { val := fun k => if k = "1.2.3.42" then some 7 else none,
          ttl := fun _ => none }).store.ttl "1.2.3.42" = none ∧
    (rateLimitMiddleWare reliable 125 { Header := [], RemoteAddr := "1.2.3.4" }
        emptyStore).store.val "1.2.3.42" = some 1 ∧
    (rateLimitMiddleWare reliable 125 { Header := [], RemoteAddr := "1.2.3.4" }
        emptyStore).store.ttl "1.2.3.42" = some 300 := by
  have hrun : (rateLimitMiddleWare deadConn 125 { Header := [], RemoteAddr := "1.2.3.4" }
        { val := fun k => if k = "1.2.3.42" then some 7 else none,
          ttl := fun _ => none }).store.val "1.2.3.42" = some 7 := by
    decide
  refine ⟨fun h => ?_, by decide, by decide, hrun, by decide, by decide, by decide⟩
  have h1 := (h deadConn 125 { Header := [], RemoteAddr := "1.2.3.4" }
    { val := fun k => if k = "1.2.3.42" then some 7 else none, ttl := fun _ => none }
    (fun _ hq => Reply.noConfusion hq)).2.1
  have hk : GetKey 125 (clientIP { Header := [], RemoteAddr := "1.2.3.4" }) = "1.2.3.42" := by
    decide
  rw [hk, hrun] at h1
  exact absurd (Option.some.inj h1) (by decide)

/-- C2 (amended): on every connection, whenever the GET for the derived key
yields no integer (the nil reply of an absent key, or any failure), the handler
sends SET key 1 and EXPIRE key 300, serves the request and writes no rejection,
whichever non-integer reply the GET gave, and the store it leaves is what those
commands make of it. On a live connection, where SET and EXPIRE take effect,
the key then holds 1 with a time to live of 300 seconds, no other key is
touched, and the outcome is that of the nil reply of an absent key. On an
unreachable store, where every command fails, the store is left as it was. -/
theorem read_failure_admits (conn : Conn Store) (now : Int) (r : Request) (s : Store)
    (hfail : ∀ v : Int, (conn.Do (Cmd.GET (GetKey now (clientIP r))) s).1 ≠ Reply.integer v) :
    (rateLimitMiddleWare conn now r s).served = 1 ∧
    (rateLimitMiddleWare conn now r s).body = [] ∧
    (rateLimitMiddleWare conn now r s).cmds =
      [Cmd.GET (GetKey now (clientIP r)), Cmd.SET (GetKey now (clientIP r)) 1,
        Cmd.EXPIRE (GetKey now (clientIP r)) 300] ∧
    (rateLimitMiddleWare conn now r s).store =
      (conn.Do (Cmd.EXPIRE (GetKey now (clientIP r)) 300)
        (conn.Do (Cmd.SET (GetKey now (clientIP r)) 1)
          (conn.Do (Cmd.GET (GetKey now (clientIP r))) s).2).2).2 ∧
    (∀ read : Store → String → Reply, conn = storeConn read →
      (rateLimitMiddleWare conn now r s).store.val (GetKey now (clientIP r)) = some 1 ∧
      (rateLimitMiddleWare conn now r s).store.ttl (GetKey now (clientIP r)) = some 300 ∧
      (∀ k, k ≠ GetKey now (clientIP r) →
        (rateLimitMiddleWare conn now r s).store.val k = s.val k ∧
        (rateLimitMiddleWare conn now r s).store.ttl k = s.ttl k) ∧
      rateLimitMiddleWare conn now r s =
        rateLimitMiddleWare (storeConn (fun _ _ => Reply.null)) now r s) ∧
    (conn = deadConn → (rateLimitMiddleWare conn now r s).store = s) := by
  have herr := redisInt_error_of_not_integer _ hfail
  have hE : EXPIRY = 300 := by decide
  rw [middleware_of_error conn now r s herr, hE]
  refine ⟨rfl, rfl, rfl, rfl, ?_, ?_⟩
  · intro read hc
    subst hc
    have hnull : (redisInt ((storeConn (fun _ _ => Reply.null)).Do
        (Cmd.GET (GetKey now (clientIP r))) s).1).2 = true := rfl
    rw [middleware_of_error _ now r s hnull, hE]
    simp only [storeConn, Store.set, Store.expire, if_true, Option.isSome_some]
    refine ⟨trivial, trivial, ?_, trivial⟩
    intro k hk
    simp [hk]
  · intro hc
    subst hc
    rfl

/-- C2 (amended), at a read that fails while the key holds 7: on a live
connection the counter is set to 1, on an unreachable store it stays as it was. -/
theorem read_failure_admits_witness :
    (rateLimitMiddleWare (storeConn (fun _ _ => Reply.failure)) 125
        { Header := [], RemoteAddr := "1.2.3.4" }
        { val := fun k => if k = "1.2.3.42" then some 7 else none, ttl := fun _ => none }).store.val
        (GetKey 125 (clientIP { Header := [], RemoteAddr := "1.2.3.4" })) = some 1 ∧
    (rateLimitMiddleWare deadConn 125 { Header := [], RemoteAddr := "1.2.3.4" }
        { val := fun k => if k = "1.2.3.42" then some 7 else none, ttl := fun _ => none }).store
      = { val := fun k => if k = "1.2.3.42" then some 7 else none, ttl := fun _ => none } :=
  ⟨((read_failure_admits (storeConn (fun _ _ => Reply.failure)) 125
      { Header := [], RemoteAddr := "1.2.3.4" }
      { val := fun k => if k = "1.2.3.42" then some 7 else none, ttl := fun _ => none }
      (fun _ h => Reply.noConfusion h)).2.2.2.2.1 (fun _ _ => Reply.failure) rfl).1,
   (read_failure_admits deadConn 125 { Header := [], RemoteAddr := "1.2.3.4" }
      { val := fun k => if k = "1.2.3.42" then some 7 else none, ttl := fun _ => none }
      (fun _ h => Reply.noConfusion h)).2.2.2.2.2 rfl⟩

/-! ## C3: rejection -/

/-- C3: on a store where GET leaves the store alone, whenever the GET for the
derived key yields an integer `v > THRESHOLD`, the handler sends no command
besides that GET (no SET, no EXPIRE), leaves the store exactly as it was, does
not call the downstream handler, and writes exactly the fixed message. -/
theorem over_threshold_rejects (read : Store → String → Reply) (now : Int) (r : Request)
    (s : Store) (v : Int)
    (hread : read s (GetKey now (clientIP r)) = Reply.integer v) (hv : v > THRESHOLD) :
    THRESHOLD = 10 ∧
    (rateLimitMiddleWare (storeConn read) now r s).cmds = [Cmd.GET (GetKey now (clientIP r))] ∧
    (rateLimitMiddleWare (storeConn read) now r s).store = s ∧
    (rateLimitMiddleWare (storeConn read) now r s).served = 0 ∧
    (rateLimitMiddleWare (storeConn read) now r s).body =
      ["Max Rate Limiting Reached, Please try after some time"] := by
  have herr : (redisInt ((storeConn read).Do (Cmd.GET (GetKey now (clientIP r))) s).1).2
      = false := by
    simp only [storeConn, hread, redisInt]
  have hval : (redisInt ((storeConn read).Do (Cmd.GET (GetKey now (clientIP r))) s).1).1
      > THRESHOLD := by
    simp only [storeConn, hread, redisInt]
    exact hv
  rw [middleware_of_over _ now r s herr hval]
  exact ⟨rfl, rfl, rfl, rfl, rfl⟩

/-- C3, at a key holding 11 with a time to live of 250 seconds. -/
theorem over_threshold_rejects_witness :
    (rateLimitMiddleWare reliable 125 { Header := [], RemoteAddr := "1.2.3.4" }
        { val := fun k => if k = "1.2.3.42" then some 11 else none,
          ttl := fun k => if k = "1.2.3.42" then some 250 else none }).served = 0 :=
  (over_threshold_rejects lookupReply 125 { Header := [], RemoteAddr := "1.2.3.4" }
      { val := fun k => if k = "1.2.3.42" then some 11 else none,
        ttl := fun k => if k = "1.2.3.42" then some 250 else none } 11
      (by decide) (by decide)).2.2.2.1

/-! ## C4: admission below the threshold -/

/-- C4: on a store where SET takes effect, whenever the GET for the derived key
yields an integer `v ≤ THRESHOLD`, the handler sends exactly that GET and SET key
(v + 1) and no EXPIRE, so the key holds `v + 1`, no time to live changes, no
other key changes, nothing is written to the response by the middleware and the
downstream handler is called exactly once. -/
theorem under_threshold_increments (read : Store → String → Reply) (now : Int) (r : Request)
    (s : Store) (v : Int)
    (hread : read s (GetKey now (clientIP r)) = Reply.integer v) (hv : v ≤ THRESHOLD) :
    (rateLimitMiddleWare (storeConn read) now r s).cmds =
      [Cmd.GET (GetKey now (clientIP r)), Cmd.SET (GetKey now (clientIP r)) (v + 1)] ∧
    (∀ k n, Cmd.EXPIRE k n ∉ (rateLimitMiddleWare (storeConn read) now r s).cmds) ∧
    (rateLimitMiddleWare (storeConn read) now r s).store.val (GetKey now (clientIP r))
      = some (v + 1) ∧
    (rateLimitMiddleWare (storeConn read) now r s).store.ttl = s.ttl ∧
    (∀ k, k ≠ GetKey now (clientIP r) →
      (rateLimitMiddleWare (storeConn read) now r s).store.val k = s.val k) ∧
    (rateLimitMiddleWare (storeConn read) now r s).body = [] ∧
    (rateLimitMiddleWare (storeConn read) now r s).served = 1 := by
  have herr : (redisInt ((storeConn read).Do (Cmd.GET (GetKey now (clientIP r))) s).1).2
      = false := by
    simp only [storeConn, hread, redisInt]
  have hval : (redisInt ((storeConn read).Do (Cmd.GET (GetKey now (clientIP r))) s).1).1 = v := by
    simp only [storeConn, hread, redisInt]
  have hle : ¬ (redisInt ((storeConn read).Do (Cmd.GET (GetKey now (clientIP r))) s).1).1
      > THRESHOLD := by
    rw [hval]
    exact not_lt.mpr hv
  rw [middleware_of_under _ now r s herr hle, hval]
  simp only [storeConn, Store.set, if_true]
  refine ⟨trivial, ?_, trivial, trivial, ?_, trivial, trivial⟩
  · intro k n h
    simp at h
  · intro k hk
    simp [hk]

/-- C4, at a key holding 10 with a time to live of 250 seconds: the key then
holds 11 and the time to live is still 250. -/
theorem under_threshold_increments_witness :
    (rateLimitMiddleWare reliable 125 { Header := [], RemoteAddr := "1.2.3.4" }
        { val := fun k => if k = "1.2.3.42" then some 10 else none,
          ttl := fun k => if k = "1.2.3.42" then some 250 else none }).store.val
        (GetKey 125 (clientIP { Header := [], RemoteAddr := "1.2.3.4" })) = some (10 + 1) :=
  (under_threshold_increments lookupReply 125 { Header := [], RemoteAddr := "1.2.3.4" }
      { val := fun k => if k = "1.2.3.42" then some 10 else none,
        ttl := fun k => if k = "1.2.3.42" then some 250 else none } 10
      (by decide) (by decide)).2.2.1

/-! ## C9: the counter never decreases? -/

/-- C9 (as stated, refuted): it is not true that in every branch the counter left
under a key is at least the counter stored before. When the read fails on a live
connection (an error reply or an unparsable value) while the key holds 7, the
SET that follows takes effect and the counter becomes 1. -/
theorem counter_monotone_counterexample :
    ¬ (∀ (read : Store → String → Reply) (now : Int) (r : Request) (s : Store) (k : String)
        (v : Int), s.val k = some v →
        ∃ w, (rateLimitMiddleWare (storeConn read) now r s).store.val k = some w ∧
          0 ≤ w ∧ v ≤ w) ∧
    (rateLimitMiddleWare (storeConn (fun _ _ => Reply.failure)) 125
        { Header := [], RemoteAddr := "1.2.3.4" }
        { val := fun k => if k = "1.2.3.42" then some 7 else none,
          ttl := fun _ => none }).store.val "1.2.3.42" = some 1 := by
  have hrun : (rateLimitMiddleWare (storeConn (fun _ _ => Reply.failure)) 125
        { Header := [], RemoteAddr := "1.2.3.4" }
        { val := fun k => if k = "1.2.3.42" then some 7 else none,
          ttl := fun _ => none }).store.val "1.2.3.42" = some 1 := by
    decide
  refine ⟨fun h => ?_, hrun⟩
  obtain ⟨w, hw, _, hle⟩ := h (fun _ _ => Reply.failure) 125
    { Header := [], RemoteAddr := "1.2.3.4" }
    { val := fun k => if k = "1.2.3.42" then some 7 else none, ttl := fun _ => none }
    "1.2.3.42" 7 (by decide)
  rw [hrun] at hw
  have : w = 1 := (Option.some.inj hw).symm
  omega

/-- C9 (amended): for every key `k` and every request step on the reliable store
(the read yields the stored value, or reports the key absent), a counter stored
under `k` before the step is still stored after it, with a value that is not
smaller and that is non-negative if it was non-negative before; a key absent
before the step is absent after it or holds 1. When the read fails instead,
the store the handler leaves is what SET key 1 and EXPIRE key 300 make of it: on
a live connection, where SET takes effect, 1 is left under the derived key,
whatever was stored there, and every other counter is as it was; on an
unreachable store, where every command fails, every counter is as it was. -/
theorem counter_monotone_reliable (now : Int) (r : Request) (s : Store) (k : String) :
    (∀ v : Int, s.val k = some v →
      ∃ w, (rateLimitMiddleWare reliable now r s).store.val k = some w ∧
        v ≤ w ∧ (0 ≤ v → 0 ≤ w)) ∧
    (s.val k = none →
      (rateLimitMiddleWare reliable now r s).store.val k = none ∨
      (rateLimitMiddleWare reliable now r s).store.val k = some 1) ∧
    (∀ conn : Conn Store,
      (∀ v : Int, (conn.Do (Cmd.GET (GetKey now (clientIP r))) s).1 ≠ Reply.integer v) →
      (rateLimitMiddleWare conn now r s).store =
        (conn.Do (Cmd.EXPIRE (GetKey now (clientIP r)) 300)
          (conn.Do (Cmd.SET (GetKey now (clientIP r)) 1)
            (conn.Do (Cmd.GET (GetKey now (clientIP r))) s).2).2).2 ∧
      (∀ read : Store → String → Reply, conn = storeConn read →
        (rateLimitMiddleWare conn now r s).store.val (GetKey now (clientIP r)) = some 1 ∧
        (k ≠ GetKey now (clientIP r) →
          (rateLimitMiddleWare conn now r s).store.val k = s.val k)) ∧
      (conn = deadConn → (rateLimitMiddleWare conn now r s).store.val k = s.val k)) := by
  refine ⟨?_, ?_, ?_⟩
  · intro v hv
    cases hkey : s.val (GetKey now (clientIP r)) with
    | none =>
      rw [(reliable_absent now r s hkey).1, expire_val, set_val]
      have hne : k ≠ GetKey now (clientIP r) := by
        intro h
        rw [h, hkey] at hv
        cases hv
      rw [if_neg hne]
      exact ⟨v, hv, le_refl v, fun h => h⟩
    | some u =>
      by_cases hu : u > THRESHOLD
      · rw [(reliable_over now r s u hkey hu).1]
        exact ⟨v, hv, le_refl v, fun h => h⟩
      · rw [(reliable_under now r s u hkey hu).1, set_val]
        by_cases hk : k = GetKey now (clientIP r)
        · rw [if_pos hk]
          rw [hk, hkey] at hv
          have : u = v := Option.some.inj hv
          exact ⟨u + 1, rfl, by omega, fun h => by omega⟩
        · rw [if_neg hk]
          exact ⟨v, hv, le_refl v, fun h => h⟩
  · intro hv
    cases hkey : s.val (GetKey now (clientIP r)) with
    | none =>
      rw [(reliable_absent now r s hkey).1, expire_val, set_val]
      by_cases hk : k = GetKey now (clientIP r)
      · rw [if_pos hk]
        exact Or.inr rfl
      · rw [if_neg hk]
        exact Or.inl hv
    | some u =>
      have hne : k ≠ GetKey now (clientIP r) := by
        intro h
        rw [h, hkey] at hv
        cases hv
      by_cases hu : u > THRESHOLD
      · rw [(reliable_over now r s u hkey hu).1]
        exact Or.inl hv
      · rw [(reliable_under now r s u hkey hu).1, set_val, if_neg hne]
        exact Or.inl hv
  · intro conn hfail
    have herr := redisInt_error_of_not_integer _ hfail
    have hE : EXPIRY = 300 := by decide
    rw [middleware_of_error conn now r s herr, hE]
    refine ⟨rfl, ?_, ?_⟩
    · intro read hc
      subst hc
      simp only [storeConn, Store.set, Store.expire, if_true, Option.isSome_some]
      refine ⟨trivial, ?_⟩
      intro hk
      simp [hk]
    · intro hc
      subst hc
      rfl

/-- C9 (amended), at a key holding 10 on the reliable store: it then holds 11. -/
theorem counter_monotone_reliable_witness :
    ∃ w, (rateLimitMiddleWare reliable 125 { Header := [], RemoteAddr := "1.2.3.4" }
        { val := fun k => if k = "1.2.3.42" then some 10 else none,
          ttl := fun _ => none }).store.val "1.2.3.42" = some w ∧
      (10 : Int) ≤ w ∧ ((0 : Int) ≤ 10 → 0 ≤ w) :=
  (counter_monotone_reliable 125 { Header := [], RemoteAddr := "1.2.3.4" }
      { val := fun k => if k = "1.2.3.42" then some 10 else none, ttl := fun _ => none }
      "1.2.3.42").1 10 (by decide)

/-! ## C10: the lost update -/

/-- C10: with each request sending its GET and its SET as separate store steps
on the reliable store, there is an interleaving of two requests that derive the
same key, holding `v ≤ THRESHOLD`, in which both requests read `v`, both are
admitted and both write `v + 1`, so that the counter ends at `v + 1` and not at
`v + 2`; run one after the other with `v < THRESHOLD`, the same two requests
leave `v + 2`. -/
theorem lost_update (ra rb : Request) (ta tb : Int) (s : Store) (v : Int)
    (hsame : GetKey ta (clientIP ra) = GetKey tb (clientIP rb))
    (hval : s.val (GetKey ta (clientIP ra)) = some v) (hv : v ≤ THRESHOLD) :
    (∃ sched : List Bool,
      (interleave reliable (sched.take 2)
          ({ now := ta, req := ra, pc := Pc.start }, { now := tb, req := rb, pc := Pc.start },
            s)).1.pc = Pc.read v false ∧
      (interleave reliable (sched.take 2)
          ({ now := ta, req := ra, pc := Pc.start }, { now := tb, req := rb, pc := Pc.start },
            s)).2.1.pc = Pc.read v false ∧
      (interleave reliable sched
          ({ now := ta, req := ra, pc := Pc.start }, { now := tb, req := rb, pc := Pc.start },
            s)).1.pc = Pc.finished true ∧
      (interleave reliable sched
          ({ now := ta, req := ra, pc := Pc.start }, { now := tb, req := rb, pc := Pc.start },
            s)).2.1.pc = Pc.finished true ∧
      (interleave reliable sched
          ({ now := ta, req := ra, pc := Pc.start }, { now := tb, req := rb, pc := Pc.start },
            s)).2.2.val (GetKey ta (clientIP ra)) = some (v + 1) ∧
      (interleave reliable sched
          ({ now := ta, req := ra, pc := Pc.start }, { now := tb, req := rb, pc := Pc.start },
            s)).2.2.val (GetKey ta (clientIP ra)) ≠ some (v + 2)) ∧
    (v < THRESHOLD →
      (interleave reliable [false, false, true, true]
          ({ now := ta, req := ra, pc := Pc.start }, { now := tb, req := rb, pc := Pc.start },
            s)).2.2.val (GetKey ta (clientIP ra)) = some (v + 2)) := by
  have hT : THRESHOLD = 10 := rfl
  have hvalb : s.val (GetKey tb (clientIP rb)) = some v := hsame ▸ hval
  have hnot : ¬ v > THRESHOLD := not_lt.mpr hv
  constructor
  · refine ⟨[false, true, false, true], ?_⟩
    simp only [List.take, interleave, Thread.step, reliable, storeConn, lookupReply, hval, hvalb,
      redisInt, Bool.false_eq_true, if_false, hnot, Store.set, ← hsame, if_true]
    refine ⟨trivial, trivial, trivial, trivial, trivial, ?_⟩
    intro h
    have := Option.some.inj h
    omega
  · intro hlt
    have hnot2 : ¬ v + 1 > THRESHOLD := by
      rw [hT] at hlt ⊢
      omega
    simp only [interleave, Thread.step, reliable, storeConn, lookupReply, hval,
      redisInt, Bool.false_eq_true, if_false, hnot, hnot2, Store.set, ← hsame, if_true]
    congr 1
    omega

/-- C10, at two requests from 1.2.3.4 at clock reading 125 with the counter at 3. -/
theorem lost_update_witness :
    ∃ sched : List Bool,
      (interleave reliable sched
          ({ now := 125, req := { Header := [], RemoteAddr := "1.2.3.4" }, pc := Pc.start },
           { now := 125, req := { Header := [], RemoteAddr := "1.2.3.4" }, pc := Pc.start },
           { val := fun k => if k = "1.2.3.42" then some 3 else none, ttl := fun _ => none })).2.2.val
        (GetKey 125 (clientIP { Header := [], RemoteAddr := "1.2.3.4" })) = some (3 + 1) :=
  (lost_update { Header := [], RemoteAddr := "1.2.3.4" } { Header := [], RemoteAddr := "1.2.3.4" }
      125 125 { val := fun k => if k = "1.2.3.42" then some 3 else none, ttl := fun _ => none } 3
      rfl (by decide) (by decide)).1.elim
    (fun sched h => ⟨sched, h.2.2.2.2.1⟩)

end Limiter
